import Mathlib

/-!
Verification of the data model and the pure logic of
`src/shared/components/home/news-landing.tsx` (the `NewsLanding` component):
the tri-state request slots and the `fetchAll` orchestrator, the mini-tag
test, the image-resolution priority, the condensed news-post rendering,
the gallery thumbnail fallback, the top-posts slicing and the tag-cloud
builder.  Optional (possibly absent) string fields of the source are
`Option String`; JavaScript truthiness of such a field is `truthy`
(present and non-empty).  JavaScript numbers in the tag-cloud size formula
are modelled as exact rationals, with `toFixed(2)`-plus-`parseFloat`
modelled as rounding to the nearest hundredth, ties away from zero
(ECMA `toFixed` picks the larger candidate on a tie).
-/

namespace NewsLanding

/-- A tag of a post, with the fields the component consumes
(`name`, `display_name?`, `deleted`). -/
structure Tag where
  name : String
  display_name : Option String
  deleted : Bool
deriving DecidableEq, Repr

/-- The `image_details` object of a post view; the component reads only
its `link` field. -/
structure ImageDetails where
  link : String
deriving DecidableEq, Repr

/-- The fields of `postView.post` that the presentation logic reads. -/
structure Post where
  id : Nat
  name : String
  url : Option String
  body : Option String
  thumbnail_url : Option String
deriving DecidableEq, Repr

/-- One post view: the post, its tags and the optional `image_details`. -/
structure PostView where
  post : Post
  tags : List Tag
  image_details : Option ImageDetails
deriving DecidableEq, Repr

/-- A posts response; the component reads only the `posts` list. -/
structure GetPostsResponse where
  posts : List PostView
deriving DecidableEq, Repr

/-- ASCII model of JavaScript `toLowerCase` on one character. -/
def lowerChar (c : Char) : Char :=
  if c.isUpper then Char.ofNat (c.toNat + 32) else c

/-- ASCII model of JavaScript `String.prototype.toLowerCase`. -/
def jsToLower (s : String) : String :=
  ⟨s.data.map lowerChar⟩

/-- Model of JavaScript `String.prototype.trim`: drop whitespace from
both ends. -/
def jsTrim (s : String) : String :=
  ⟨((s.data.dropWhile Char.isWhitespace).reverse.dropWhile Char.isWhitespace).reverse⟩

/-- JavaScript truthiness of an optional string: present and non-empty. -/
def truthy : Option String → Bool
  | some s => !(s == "")
  | none => false

/-- JavaScript `a || b` for an optional string `a` and a string `b`:
`a` when present and non-empty, else `b`.  `jsOr t.display_name t.name`
is the source's `(tag.display_name || tag.name || "")` (when both are
falsy the chain yields `""`, and so does `jsOr` since `t.name` is then
itself `""`). -/
def jsOr (a : Option String) (b : String) : String :=
  match a with
  | some s => if s == "" then b else s
  | none => b

/-- The un-trimmed label chain `(tag.display_name || tag.name || "")`
that both `hasMiniTag` and `buildTagCloud` start from. -/
def tagLabelRaw (t : Tag) : String :=
  jsOr t.display_name t.name

/-- Source `hasMiniTag` (lines 499-504): some tag whose lower-cased
`(display_name || name || "")` equals `"mini"`.  Note: the source does
not trim this string. -/
def hasMiniTag (tags : List Tag) : Bool :=
  tags.any fun t => jsToLower (tagLabelRaw t) == "mini"

/-- Source `getImageUrl` (lines 506-522): `image_details?.link` when
truthy, else `url` when truthy and accepted by the image predicate, else
`thumbnail_url` when truthy and accepted, else none. -/
def getImageUrl (pv : PostView) (isImage : String → Bool) : Option String :=
  if truthy (pv.image_details.map ImageDetails.link) then
    pv.image_details.map ImageDetails.link
  else if truthy pv.post.url && isImage (pv.post.url.getD "") then
    pv.post.url
  else if truthy pv.post.thumbnail_url && isImage (pv.post.thumbnail_url.getD "") then
    pv.post.thumbnail_url
  else
    none

/-- The content blocks of one rendered news post (source `renderNewsPost`,
lines 412-482): the title link always renders; `hostLink` is the external
hostname link (rendered iff `url && !isMini && !imageUrl`), `image` the
rendered image (iff `imageUrl` truthy), `bodyRendered` the markdown body
(iff `!isMini && body`). -/
structure NewsPostRender where
  title : String
  hostLink : Option String
  image : Option String
  bodyRendered : Option String
deriving DecidableEq, Repr

/-- Source `renderNewsPost` (lines 412-482) restricted to its content
decisions: `isMini := hasMiniTag tags`, `imageUrl := !isMini ?
getImageUrl(postView) : undefined`, and the three conditional blocks. -/
def renderNewsPost (pv : PostView) (isImage : String → Bool) : NewsPostRender :=
  let isMini := hasMiniTag pv.tags
  let imageUrl := if !isMini then getImageUrl pv isImage else none
  { title := pv.post.name
    hostLink := if truthy pv.post.url && !isMini && !(truthy imageUrl) then pv.post.url else none
    image := if truthy imageUrl then imageUrl else none
    bodyRendered := if !isMini && truthy pv.post.body then pv.post.body else none }

/-- Source `renderGalleryItem` (lines 269-297): the displayed thumbnail is
`getImageUrl(postView) ?? postView.post.thumbnail_url`, shown iff truthy. -/
def galleryItemImage (pv : PostView) (isImage : String → Bool) : Option String :=
  let thumbnail :=
    match getImageUrl pv isImage with
    | some u => some u
    | none => pv.post.thumbnail_url
  if truthy thumbnail then thumbnail else none

/-- Modelled from the spec: the generic request-state wrapper of
`HttpService` (not under `src/`); the spec's Request-State Container is
`empty | loading | success(data) | failed(error)` with the error carrying
a human-readable message. -/
inductive RequestState (T : Type) where
  | empty
  | loading
  | success (data : T)
  | failed (err : String)
deriving DecidableEq

/-- A request state that has settled (success or failed). -/
def RequestState.isResolved {T : Type} : RequestState T → Bool
  | .success _ => true
  | .failed _ => true
  | .empty => false
  | .loading => false

/-- What one rendered feed section shows (source `renderLocalTopContent`,
lines 310-349, and its siblings): a spinner while loading, the error with
a retry control on failure, a "no posts" notice, the list of rendered
items, or nothing for the untouched `empty` state. -/
inductive SectionRender where
  | spinner
  | failedMsg (msg : String)
  | noPosts
  | items (posts : List PostView)
  | blank
deriving DecidableEq

/-- Source `renderLocalTopContent` (lines 310-349): on success it takes
`posts.slice(0, 10)`, shows the "no posts" notice when that slice is
empty, else renders the sliced list in order. -/
def renderLocalTopContent : RequestState GetPostsResponse → SectionRender
  | .loading => .spinner
  | .failed e => .failedMsg e
  | .success resp =>
      let posts := resp.posts.take 10
      if posts.isEmpty then .noPosts else .items posts
  | .empty => .blank

/-- The list of posts a section render actually displays. -/
def renderedTopItems : SectionRender → List PostView
  | .items l => l
  | _ => []

/-! ### Tag cloud (source `buildTagCloud`, lines 524-557) -/

/-- One step of the source's counting loop body: `counts.set(label,
(counts.get(label) ?? 0) + 1)` on an insertion-ordered map, embedded as
an association list. -/
def bump (m : List (String × Nat)) (label : String) : List (String × Nat) :=
  if m.any fun p => p.1 == label then
    m.map fun p => if p.1 = label then (p.1, p.2 + 1) else p
  else
    m ++ [(label, 1)]

/-- The per-tag body of the source's counting loop: skip deleted tags,
skip empty trimmed labels, else count the trimmed label. -/
def addTag (m : List (String × Nat)) (t : Tag) : List (String × Nat) :=
  if t.deleted then m
  else if jsTrim (tagLabelRaw t) = "" then m
  else bump m (jsTrim (tagLabelRaw t))

/-- The inner `for (const tag of post.tags)` loop of `buildTagCloud`. -/
def addPost (m : List (String × Nat)) (pv : PostView) : List (String × Nat) :=
  pv.tags.foldl addTag m

/-- The label-to-count accumulation of `buildTagCloud` (lines 525-534):
both nested loops, starting from the empty map. -/
def tagCounts (posts : List PostView) : List (String × Nat) :=
  posts.foldl addPost []

/-- `Math.max(...counts)` over a non-empty spread (0 for the empty list,
which the source never queries). -/
def maxOf : List Nat → Nat
  | [] => 0
  | c :: cs => max c (maxOf cs)

/-- `Math.min(...counts)` over a non-empty spread (0 for the empty list,
which the source never queries). -/
def minOf : List Nat → Nat
  | [] => 0
  | [c] => c
  | c :: c2 :: cs => min c (minOf (c2 :: cs))

/-- Insert one entry into a list already sorted descending by count,
keeping earlier entries first on ties: one step of the stable
`entries.sort((a, b) => b[1] - a[1])`. -/
def insertDesc (x : String × Nat) : List (String × Nat) → List (String × Nat)
  | [] => [x]
  | y :: ys => if y.2 ≤ x.2 then x :: y :: ys else y :: insertDesc x ys

/-- The stable descending-by-count sort `entries.sort((a, b) => b[1] - a[1])`. -/
def sortByCountDesc : List (String × Nat) → List (String × Nat)
  | [] => []
  | x :: xs => insertDesc x (sortByCountDesc xs)

/-- The source's `minSize = 0.85`. -/
def minSize : ℚ := 85 / 100

/-- The source's `maxSize = 1.6`. -/
def maxSize : ℚ := 160 / 100

/-- `parseFloat(x.toFixed(2))`: round to the nearest hundredth, ties
upward (ECMA `toFixed` picks the larger candidate on a tie, and the
source's operands are nonnegative). -/
def round2 (q : ℚ) : ℚ :=
  ((Rat.floor (q * 100 + 1 / 2) : ℤ) : ℚ) / 100

/-- The source's `ratio`: `max === min ? 0.5 : (count - min) / (max - min)`. -/
def cloudRatio (mx mn c : Nat) : ℚ :=
  if mx = mn then 1 / 2 else ((c : ℚ) - (mn : ℚ)) / ((mx : ℚ) - (mn : ℚ))

/-- The size assigned to a count: `parseFloat((minSize + (maxSize -
minSize) * ratio).toFixed(2))`. -/
def cloudSize (mx mn c : Nat) : ℚ :=
  round2 (minSize + (maxSize - minSize) * cloudRatio mx mn c)

/-- One tag-cloud entry `{ name, size }` as built by the source. -/
structure TagCloudEntry where
  name : String
  size : ℚ
deriving DecidableEq

/-- Source `buildTagCloud` (lines 524-557): count qualifying labels,
return `[]` when none survive, else sort descending by count and map
each entry to its rounded size. -/
def buildTagCloud (posts : List PostView) : List TagCloudEntry :=
  if (tagCounts posts).isEmpty then []
  else
    (sortByCountDesc (tagCounts posts)).map fun e =>
      { name := e.1
        size := cloudSize (maxOf ((tagCounts posts).map Prod.snd))
                          (minOf ((tagCounts posts).map Prod.snd)) e.2 }

/-! ### Orchestrator (source `fetchAll`, constructor and
`componentWillMount`, lines 59-108 and 559-581) -/

/-- The three feed slots of the component state. -/
structure FeedSlots (T : Type) where
  newsPosts : RequestState T
  galleryPosts : RequestState T
  localTopPosts : RequestState T
deriving DecidableEq

/-- Names for the three slots. -/
inductive SlotName where
  | news
  | gallery
  | top
deriving DecidableEq

/-- Read one named slot. -/
def FeedSlots.slot {T : Type} (s : FeedSlots T) : SlotName → RequestState T
  | .news => s.newsPosts
  | .gallery => s.galleryPosts
  | .top => s.localTopPosts

/-- The state written by the source's first `setState` of `fetchAll`
(lines 560-564): all three slots `LOADING_REQUEST` in one batch. -/
def allLoading (T : Type) : FeedSlots T :=
  { newsPosts := .loading, galleryPosts := .loading, localTopPosts := .loading }

/-- Modelled from the spec: the wrapped HTTP client (not under `src/`)
resolves every fetch to `Success(page)` or `Failed(error)`. -/
inductive FetchOutcome (T : Type) where
  | success (data : T)
  | failed (err : String)
deriving DecidableEq

/-- The request state a settled fetch writes into its slot. -/
def outcomeState {T : Type} : FetchOutcome T → RequestState T
  | .success d => .success d
  | .failed e => .failed e

/-- The timestamped sequence of observable state updates one `fetchAll()`
call performs (source lines 559-581), given the resolution time and
outcome of each of the three fetches: the synchronous `setState` putting
all three slots to loading happens at time `0`, before any fetch is
awaited; the continuation after `await Promise.all` runs only when the
last of the three promises settles, i.e. at the maximum of the three
resolution times, and then writes all three outcomes in one `setState`. -/
def fetchAllUpdates {T : Type} (tNews tGallery tTop : Nat)
    (oNews oGallery oTop : FetchOutcome T) : List (Nat × FeedSlots T) :=
  [ (0, allLoading T),
    (max tNews (max tGallery tTop),
      { newsPosts := outcomeState oNews
        galleryPosts := outcomeState oGallery
        localTopPosts := outcomeState oTop }) ]

/-- The earliest timestamp at which a given slot is observably resolved
(success or failed) in a timeline of state updates. -/
def firstResolvedTime {T : Type} (s : SlotName) (tl : List (Nat × FeedSlots T)) : Option Nat :=
  ((tl.filter fun p => (p.2.slot s).isResolved).map Prod.fst).head?

/-- The component state: the three slots plus the `isIsomorphic` flag. -/
structure NewsLandingState (T : Type) where
  newsPosts : RequestState T
  galleryPosts : RequestState T
  localTopPosts : RequestState T
  isIsomorphic : Bool
deriving DecidableEq

/-- Modelled from the spec: the hydration snapshot (`isoData.routeData`,
whose `RouteDataResponse` wrapper and server fill are not under `src/`)
carries the three pre-fetched posts responses, one per feed. -/
structure NewsLandingData (T : Type) where
  newsPosts : T
  galleryPosts : T
  localTopPosts : T
deriving DecidableEq

/-- The field-initializer state of the component (lines 66-71): all three
slots `EMPTY_REQUEST`, not isomorphic. -/
def initialNewsLandingState (T : Type) : NewsLandingState T :=
  { newsPosts := .empty, galleryPosts := .empty, localTopPosts := .empty
    isIsomorphic := false }

/-- The constructor (lines 73-86): on first load it replaces the state by
the snapshot's three responses (spec: the slots start in `Success` with
the snapshot's data) with `isIsomorphic := true`; otherwise the
field-initializer state stands. -/
def constructNewsLanding {T : Type} (isFirstLoad : Bool) (routeData : NewsLandingData T) :
    NewsLandingState T :=
  if isFirstLoad then
    { newsPosts := .success routeData.newsPosts
      galleryPosts := .success routeData.galleryPosts
      localTopPosts := .success routeData.localTopPosts
      isIsomorphic := true }
  else initialNewsLandingState T

/-- `componentWillMount` (lines 88-92): whether it invokes `fetchAll()`,
namely iff `!this.state.isIsomorphic && isBrowser()`. -/
def componentWillMountFetches {T : Type} (st : NewsLandingState T) (isBrowser : Bool) : Bool :=
  !st.isIsomorphic && isBrowser

/-! ### Concrete inputs used by witnesses and counterexamples -/

/-- A non-deleted tag whose display name is `" Mini "` (surrounding
whitespace, capital M). -/
def spaceMiniTag : Tag :=
  { name := "x", display_name := some " Mini ", deleted := false }

/-- Follows the spec's words, for comparison with the source's
`hasMiniTag`: the display label (`display_name` if non-empty, else
`name`), trimmed, is compared case-insensitively with `"mini"`. -/
def isMiniMarkerSpec (t : Tag) : Bool :=
  jsToLower (jsTrim (jsOr t.display_name t.name)) == "mini"

/-- A post with one qualifying tag `"funny"` and nothing else. -/
def pvFunny : PostView :=
  { post := { id := 1, name := "p1", url := none, body := none, thumbnail_url := none }
    tags := [{ name := "funny", display_name := none, deleted := false }]
    image_details := none }

/-- A post whose only tags are a deleted one and one whose label trims
to empty. -/
def pvExcluded : PostView :=
  { post := { id := 2, name := "p2", url := none, body := none, thumbnail_url := none }
    tags := [{ name := "funny", display_name := none, deleted := true },
             { name := "  ", display_name := none, deleted := false }]
    image_details := none }

/-- A post carrying a `"Mini"` tag together with a url, a body and image
candidates. -/
def pvMini : PostView :=
  { post := { id := 3, name := "p3", url := some "u.jpg", body := some "text"
              thumbnail_url := some "t.jpg" }
    tags := [{ name := "Mini", display_name := none, deleted := false }]
    image_details := some { link := "l.png" } }

/-- A post with a non-empty `image_details.link` and other image fields. -/
def pvDet : PostView :=
  { post := { id := 4, name := "p4", url := some "other.jpg", body := none
              thumbnail_url := some "t.jpg" }
    tags := []
    image_details := some { link := "x.png" } }

/-- A post whose `image_details.link` is present but empty, with a
truthy image url. -/
def pvEmptyLink : PostView :=
  { post := { id := 5, name := "p5", url := some "a.jpg", body := none
              thumbnail_url := none }
    tags := []
    image_details := some { link := "" } }

/-- A post whose only image candidate is its raw `thumbnail_url`. -/
def pvThumbOnly : PostView :=
  { post := { id := 6, name := "p6", url := none, body := none
              thumbnail_url := some "t.bmp" }
    tags := []
    image_details := none }

/-! ### Rounding lemmas -/

theorem rat_floor_eq_int_floor (q : ℚ) : (Rat.floor q : ℤ) = ⌊q⌋ :=
  (Rat.floor_def' q).trans Rat.floor_def.symm

theorem round2_eq (q : ℚ) : round2 q = ((⌊q * 100 + 1 / 2⌋ : ℤ) : ℚ) / 100 := by
  rw [round2, rat_floor_eq_int_floor]

theorem round2_eval (q : ℚ) (z : ℤ) (h1 : (z : ℚ) ≤ q * 100 + 1 / 2)
    (h2 : q * 100 + 1 / 2 < z + 1) : round2 q = (z : ℚ) / 100 := by
  rw [round2_eq]
  congr 1
  exact_mod_cast Int.floor_eq_iff.mpr ⟨h1, h2⟩

theorem round2_mono {a b : ℚ} (h : a ≤ b) : round2 a ≤ round2 b := by
  rw [round2_eq, round2_eq]
  have hf : ⌊a * 100 + 1 / 2⌋ ≤ ⌊b * 100 + 1 / 2⌋ := Int.floor_mono (by linarith)
  have hc : ((⌊a * 100 + 1 / 2⌋ : ℤ) : ℚ) ≤ ((⌊b * 100 + 1 / 2⌋ : ℤ) : ℚ) := by
    exact_mod_cast hf
  linarith

theorem round2_minSize : round2 minSize = minSize := by
  have h := round2_eval minSize 85 (by norm_num [minSize]) (by norm_num [minSize])
  rw [h]
  norm_num [minSize]

theorem round2_maxSize : round2 maxSize = maxSize := by
  have h := round2_eval maxSize 160 (by norm_num [maxSize]) (by norm_num [maxSize])
  rw [h]
  norm_num [maxSize]

/-! ### Tag-cloud helper lemmas -/

theorem cloudRatio_bounds {mx mn c : Nat} (h1 : mn ≤ c) (h2 : c ≤ mx) :
    0 ≤ cloudRatio mx mn c ∧ cloudRatio mx mn c ≤ 1 := by
  unfold cloudRatio
  split_ifs with h
  · norm_num
  · have hlt : mn < mx := lt_of_le_of_ne (le_trans h1 h2) fun e => h e.symm
    have hpos : (0 : ℚ) < (mx : ℚ) - (mn : ℚ) := by
      have hq : (mn : ℚ) < (mx : ℚ) := by exact_mod_cast hlt
      linarith
    constructor
    · apply div_nonneg _ hpos.le
      have hq : (mn : ℚ) ≤ (c : ℚ) := by exact_mod_cast h1
      linarith
    · rw [div_le_one hpos]
      have hq : (c : ℚ) ≤ (mx : ℚ) := by exact_mod_cast h2
      linarith

theorem cloudSize_bounds {mx mn c : Nat} (h1 : mn ≤ c) (h2 : c ≤ mx) :
    minSize ≤ cloudSize mx mn c ∧ cloudSize mx mn c ≤ maxSize := by
  obtain ⟨hr0, hr1⟩ := cloudRatio_bounds h1 h2
  constructor
  · have hle : minSize ≤ minSize + (maxSize - minSize) * cloudRatio mx mn c := by
      have hp : 0 ≤ (maxSize - minSize) * cloudRatio mx mn c :=
        mul_nonneg (by norm_num [minSize, maxSize]) hr0
      linarith
    calc minSize = round2 minSize := round2_minSize.symm
      _ ≤ cloudSize mx mn c := round2_mono hle
  · have hle : minSize + (maxSize - minSize) * cloudRatio mx mn c ≤ maxSize := by
      have hp : (maxSize - minSize) * cloudRatio mx mn c ≤ (maxSize - minSize) * 1 :=
        mul_le_mul_of_nonneg_left hr1 (by norm_num [minSize, maxSize])
      have hq : (maxSize - minSize) * 1 = maxSize - minSize := mul_one _
      linarith
    calc cloudSize mx mn c ≤ round2 maxSize := round2_mono hle
      _ = maxSize := round2_maxSize

theorem cloudSize_equal {mx mn : Nat} (c : Nat) (h : mx = mn) :
    cloudSize mx mn c = 123 / 100 := by
  unfold cloudSize cloudRatio
  rw [if_pos h]
  have h2 := round2_eval (minSize + (maxSize - minSize) * (1 / 2)) 123
    (by norm_num [minSize, maxSize]) (by norm_num [minSize, maxSize])
  rw [h2]
  norm_num

theorem cloudSize_top {mx mn : Nat} (c : Nat) (hc : c = mx) (hlt : mn < mx) :
    cloudSize mx mn c = maxSize := by
  unfold cloudSize cloudRatio
  rw [if_neg (by omega : ¬ mx = mn)]
  have hpos : (0 : ℚ) < (mx : ℚ) - (mn : ℚ) := by
    have hq : (mn : ℚ) < (mx : ℚ) := by exact_mod_cast hlt
    linarith
  subst hc
  rw [div_self (ne_of_gt hpos)]
  have h2 := round2_eval (minSize + (maxSize - minSize) * 1) 160
    (by norm_num [minSize, maxSize]) (by norm_num [minSize, maxSize])
  rw [h2]
  norm_num [maxSize]

theorem le_maxOf : ∀ (l : List Nat) (x : Nat), x ∈ l → x ≤ maxOf l := by
  intro l
  induction l with
  | nil => intro x h; cases h
  | cons c cs ih =>
    intro x h
    show x ≤ max c (maxOf cs)
    rcases List.mem_cons.mp h with h1 | h1
    · exact h1 ▸ le_max_left c (maxOf cs)
    · exact le_trans (ih x h1) (le_max_right c (maxOf cs))

theorem maxOf_mem : ∀ (l : List Nat), l ≠ [] → maxOf l ∈ l := by
  intro l
  induction l with
  | nil => intro h; exact absurd rfl h
  | cons c cs ih =>
    intro _
    show max c (maxOf cs) ∈ c :: cs
    rcases eq_or_ne cs [] with hcs | hcs
    · subst hcs
      show max c (maxOf []) ∈ [c]
      simp [maxOf]
    · rcases max_choice c (maxOf cs) with h | h
      · rw [h]; exact List.mem_cons_self c cs
      · rw [h]; exact List.mem_cons_of_mem c (ih hcs)

theorem minOf_le : ∀ (l : List Nat) (x : Nat), x ∈ l → minOf l ≤ x := by
  intro l
  induction l with
  | nil => intro x h; cases h
  | cons c cs ih =>
    intro x h
    cases cs with
    | nil =>
      rcases List.mem_cons.mp h with h1 | h1
      · subst h1; exact le_refl x
      · cases h1
    | cons c2 cs2 =>
      show min c (minOf (c2 :: cs2)) ≤ x
      rcases List.mem_cons.mp h with h1 | h1
      · exact h1 ▸ min_le_left _ _
      · exact le_trans (min_le_right _ _) (ih x h1)

theorem minOf_mem : ∀ (l : List Nat), l ≠ [] → minOf l ∈ l := by
  intro l
  induction l with
  | nil => intro h; exact absurd rfl h
  | cons c cs ih =>
    intro _
    cases cs with
    | nil => exact List.mem_singleton.mpr rfl
    | cons c2 cs2 =>
      show min c (minOf (c2 :: cs2)) ∈ c :: c2 :: cs2
      rcases min_choice c (minOf (c2 :: cs2)) with h | h
      · rw [h]; exact List.mem_cons_self _ _
      · rw [h]; exact List.mem_cons_of_mem _ (ih (by simp))

theorem mem_insertDesc {a x : String × Nat} :
    ∀ {l : List (String × Nat)}, a ∈ insertDesc x l ↔ a = x ∨ a ∈ l := by
  intro l
  induction l with
  | nil => simp [insertDesc]
  | cons y ys ih =>
    show a ∈ (if y.2 ≤ x.2 then x :: y :: ys else y :: insertDesc x ys) ↔ _
    split_ifs with h
    · simp [List.mem_cons]
    · simp only [List.mem_cons, ih]
      tauto

theorem mem_sortByCountDesc {a : String × Nat} :
    ∀ {l : List (String × Nat)}, a ∈ sortByCountDesc l ↔ a ∈ l := by
  intro l
  induction l with
  | nil => simp [sortByCountDesc]
  | cons x xs ih =>
    show a ∈ insertDesc x (sortByCountDesc xs) ↔ _
    rw [mem_insertDesc]
    simp only [List.mem_cons, ih]

theorem bump_ne_nil (m : List (String × Nat)) (label : String) : bump m label ≠ [] := by
  unfold bump
  split_ifs with h
  · cases m with
    | nil => simp at h
    | cons q qs => simp
  · intro hc
    have h2 := List.append_eq_nil.mp hc
    simp at h2

theorem mem_bump {m : List (String × Nat)} {label k : String} {c : Nat}
    (h : (k, c) ∈ bump m label) : (∃ c2, (k, c2) ∈ m) ∨ k = label := by
  unfold bump at h
  split_ifs at h with hc
  · rcases List.mem_map.mp h with ⟨p, hp, he⟩
    split_ifs at he with hpl
    · have h1 : p.1 = k := congrArg Prod.fst he
      left
      refine ⟨p.2, ?_⟩
      rw [← h1]
      exact hp
    · subst he
      left
      exact ⟨c, hp⟩
  · rcases List.mem_append.mp h with h1 | h1
    · left; exact ⟨c, h1⟩
    · right
      have h2 : (k, c) = (label, 1) := List.mem_singleton.mp h1
      exact congrArg Prod.fst h2

theorem addTag_qual (m : List (String × Nat)) {t : Tag} (hd : t.deleted = false)
    (hl : jsTrim (tagLabelRaw t) ≠ "") :
    addTag m t = bump m (jsTrim (tagLabelRaw t)) := by
  unfold addTag
  rw [hd]
  simp [hl]

theorem addTag_ne_nil {m : List (String × Nat)} (t : Tag) (hm : m ≠ []) :
    addTag m t ≠ [] := by
  unfold addTag
  split_ifs with h1 h2
  · exact hm
  · exact hm
  · exact bump_ne_nil m _

theorem addTag_nonqual (m : List (String × Nat)) {t : Tag}
    (h : t.deleted = true ∨ jsTrim (tagLabelRaw t) = "") : addTag m t = m := by
  unfold addTag
  rcases h with h | h
  · rw [if_pos h]
  · by_cases h1 : t.deleted = true
    · rw [if_pos h1]
    · rw [if_neg h1, if_pos h]

theorem foldl_addTag_ne_nil : ∀ (ts : List Tag) (m : List (String × Nat)),
    m ≠ [] → ts.foldl addTag m ≠ [] := by
  intro ts
  induction ts with
  | nil => intro m hm; exact hm
  | cons t ts ih => intro m hm; exact ih (addTag m t) (addTag_ne_nil t hm)

theorem foldl_addTag_qual_ne_nil : ∀ (ts : List Tag) (m : List (String × Nat)) {t : Tag},
    t ∈ ts → t.deleted = false → jsTrim (tagLabelRaw t) ≠ "" →
    ts.foldl addTag m ≠ [] := by
  intro ts
  induction ts with
  | nil => intro m t h; cases h
  | cons t0 ts ih =>
    intro m t ht hd hl
    rcases List.mem_cons.mp ht with h1 | h1
    · subst h1
      have h2 : addTag m t ≠ [] := by
        rw [addTag_qual m hd hl]
        exact bump_ne_nil m _
      exact foldl_addTag_ne_nil ts (addTag m t) h2
    · exact ih (addTag m t0) h1 hd hl

theorem mem_foldl_addTag : ∀ (ts : List Tag) (m : List (String × Nat)) {k : String} {c : Nat},
    (k, c) ∈ ts.foldl addTag m →
    (∃ c2, (k, c2) ∈ m) ∨
      ∃ t ∈ ts, t.deleted = false ∧ jsTrim (tagLabelRaw t) = k ∧ k ≠ "" := by
  intro ts
  induction ts with
  | nil => intro m k c h; exact Or.inl ⟨c, h⟩
  | cons t ts ih =>
    intro m k c h
    rcases ih (addTag m t) h with h1 | h1
    · obtain ⟨c2, hc2⟩ := h1
      revert hc2
      unfold addTag
      split_ifs with hd hl
      · intro hc2; exact Or.inl ⟨c2, hc2⟩
      · intro hc2; exact Or.inl ⟨c2, hc2⟩
      · intro hc2
        rcases mem_bump hc2 with h2 | h2
        · exact Or.inl h2
        · right
          refine ⟨t, List.mem_cons_self t ts, ?_, h2.symm, ?_⟩
          · simpa using hd
          · rw [h2]; exact hl
    · right
      obtain ⟨t2, ht2, rest⟩ := h1
      exact ⟨t2, List.mem_cons_of_mem t ht2, rest⟩

theorem foldl_addPost_ne_nil : ∀ (ps : List PostView) (m : List (String × Nat)),
    m ≠ [] → ps.foldl addPost m ≠ [] := by
  intro ps
  induction ps with
  | nil => intro m hm; exact hm
  | cons p ps ih =>
    intro m hm
    exact ih (addPost m p) (foldl_addTag_ne_nil p.tags m hm)

theorem foldl_addPost_qual_ne_nil : ∀ (ps : List PostView) (m : List (String × Nat))
    {pv : PostView}, pv ∈ ps →
    (∃ t ∈ pv.tags, t.deleted = false ∧ jsTrim (tagLabelRaw t) ≠ "") →
    ps.foldl addPost m ≠ [] := by
  intro ps
  induction ps with
  | nil => intro m pv h; cases h
  | cons p0 ps ih =>
    intro m pv hpv hq
    rcases List.mem_cons.mp hpv with h1 | h1
    · subst h1
      obtain ⟨t, ht, hd, hl⟩ := hq
      exact foldl_addPost_ne_nil ps _ (foldl_addTag_qual_ne_nil pv.tags m ht hd hl)
    · exact ih (addPost m p0) h1 hq

theorem tagCounts_ne_nil {posts : List PostView}
    (h : ∃ pv ∈ posts, ∃ t ∈ pv.tags, t.deleted = false ∧ jsTrim (tagLabelRaw t) ≠ "") :
    tagCounts posts ≠ [] := by
  obtain ⟨pv, hpv, hq⟩ := h
  exact foldl_addPost_qual_ne_nil posts [] hpv hq

theorem mem_foldl_addPost : ∀ (ps : List PostView) (m : List (String × Nat))
    {k : String} {c : Nat}, (k, c) ∈ ps.foldl addPost m →
    (∃ c2, (k, c2) ∈ m) ∨
      ∃ pv ∈ ps, ∃ t ∈ pv.tags, t.deleted = false ∧ jsTrim (tagLabelRaw t) = k ∧ k ≠ "" := by
  intro ps
  induction ps with
  | nil => intro m k c h; exact Or.inl ⟨c, h⟩
  | cons p ps ih =>
    intro m k c h
    rcases ih (addPost m p) h with h1 | h1
    · obtain ⟨c2, hc2⟩ := h1
      rcases mem_foldl_addTag p.tags m hc2 with h2 | h2
      · exact Or.inl h2
      · right
        obtain ⟨t, ht, rest⟩ := h2
        exact ⟨p, List.mem_cons_self p ps, t, ht, rest⟩
    · right
      obtain ⟨pv, hpv, rest⟩ := h1
      exact ⟨pv, List.mem_cons_of_mem p hpv, rest⟩

theorem mem_tagCounts {posts : List PostView} {k : String} {c : Nat}
    (h : (k, c) ∈ tagCounts posts) :
    ∃ pv ∈ posts, ∃ t ∈ pv.tags,
      t.deleted = false ∧ jsTrim (tagLabelRaw t) = k ∧ k ≠ "" := by
  rcases mem_foldl_addPost posts [] h with h1 | h1
  · obtain ⟨c2, hc2⟩ := h1
    cases hc2
  · exact h1

theorem foldl_addTag_nonqual : ∀ (ts : List Tag) (m : List (String × Nat)),
    (∀ t ∈ ts, t.deleted = true ∨ jsTrim (tagLabelRaw t) = "") →
    ts.foldl addTag m = m := by
  intro ts
  induction ts with
  | nil => intro m _; rfl
  | cons t ts ih =>
    intro m h
    show ts.foldl addTag (addTag m t) = m
    rw [addTag_nonqual m (h t (List.mem_cons_self t ts))]
    exact ih m fun t2 ht2 => h t2 (List.mem_cons_of_mem t ht2)

theorem tagCounts_nonqual : ∀ (posts : List PostView),
    (∀ pv ∈ posts, ∀ t ∈ pv.tags, t.deleted = true ∨ jsTrim (tagLabelRaw t) = "") →
    tagCounts posts = [] := by
  have haux : ∀ (ps : List PostView) (m : List (String × Nat)),
      (∀ pv ∈ ps, ∀ t ∈ pv.tags, t.deleted = true ∨ jsTrim (tagLabelRaw t) = "") →
      ps.foldl addPost m = m := by
    intro ps
    induction ps with
    | nil => intro m _; rfl
    | cons p ps ih =>
      intro m h
      show ps.foldl addPost (addPost m p) = m
      have h2 : addPost m p = m :=
        foldl_addTag_nonqual p.tags m (h p (List.mem_cons_self p ps))
      rw [h2]
      exact ih m fun pv hpv => h pv (List.mem_cons_of_mem p hpv)
  intro posts h
  exact haux posts [] h

/-! ### Image-resolution helper lemmas -/

theorem getImageUrl_some_ne_empty {pv : PostView} {isImage : String → Bool} {u : String}
    (h : getImageUrl pv isImage = some u) : u ≠ "" := by
  unfold getImageUrl at h
  split_ifs at h with h1 h2 h3
  · rw [h] at h1
    simpa [truthy] using h1
  · have h4 : truthy pv.post.url = true := (Bool.and_eq_true _ _ |>.mp h2).1
    rw [h] at h4
    simpa [truthy] using h4
  · have h4 : truthy pv.post.thumbnail_url = true := (Bool.and_eq_true _ _ |>.mp h3).1
    rw [h] at h4
    simpa [truthy] using h4

/-! ### Orchestrator helper lemmas -/

theorem outcomeState_isResolved {T : Type} (o : FetchOutcome T) :
    (outcomeState o).isResolved = true := by
  cases o <;> rfl

theorem isResolved_loading {T : Type} :
    (RequestState.loading : RequestState T).isResolved = false := rfl

/-! ### Claim C2: the mini-marker test -/

/-- Claim C2 (counterexample): the source's `hasMiniTag` does not trim,
so the non-deleted tag labelled `" Mini "` — which the claim, comparing
the trimmed label case-insensitively with `"mini"` (the spec-side
`isMiniMarkerSpec`), classifies as a mini-marker — is not one for the
code. -/
theorem hasMiniTag_trim_cex :
    isMiniMarkerSpec spaceMiniTag = true ∧ hasMiniTag [spaceMiniTag] = false := by
  constructor <;> decide

/-- Claim C2 (amended): the mini-marker test holds exactly when some
tag's label (`display_name` if non-empty, else `name`), lower-cased but
NOT trimmed, equals `"mini"`; in particular a tag labelled `" Mini "`
is not a mini-marker. -/
theorem hasMiniTag_iff (tags : List Tag) :
    hasMiniTag tags = true ↔
      ∃ t ∈ tags, jsToLower (jsOr t.display_name t.name) = "mini" := by
  unfold hasMiniTag tagLabelRaw
  rw [List.any_eq_true]
  constructor
  · rintro ⟨t, ht, he⟩
    exact ⟨t, ht, by simpa using he⟩
  · rintro ⟨t, ht, he⟩
    exact ⟨t, ht, by simpa using he⟩

/-! ### Claim C5: image-resolution priority -/

/-- Claim C5 (counterexample): `pvEmptyLink` has `image_details.link`
present but equal to `""`; the claim as stated then demands the resolved
image be `""` regardless of the other fields, but the source's
truthiness guard skips the empty link and resolves the url `"a.jpg"`. -/
theorem getImageUrl_empty_link_cex :
    pvEmptyLink.image_details = some { link := "" } ∧
    getImageUrl pvEmptyLink (fun _ => true) = some "a.jpg" ∧
    getImageUrl pvEmptyLink (fun _ => true) ≠ some "" := by
  refine ⟨by decide, by decide, by decide⟩

/-- Claim C5 (amended): first-match priority with presence strengthened
to truthiness (present AND non-empty): `image_details.link` when present
and non-empty — then regardless of every other field; else `url` when
present, non-empty and accepted by the image predicate; else
`thumbnail_url` under the same test; else none. -/
theorem getImageUrl_priority (pv : PostView) (isImage : String → Bool) :
    (∀ x, pv.image_details.map ImageDetails.link = some x → x ≠ "" →
        getImageUrl pv isImage = some x) ∧
    (truthy (pv.image_details.map ImageDetails.link) = false →
      ∀ u, pv.post.url = some u → u ≠ "" → isImage u = true →
        getImageUrl pv isImage = some u) ∧
    (truthy (pv.image_details.map ImageDetails.link) = false →
      (truthy pv.post.url && isImage (pv.post.url.getD "")) = false →
      ∀ w, pv.post.thumbnail_url = some w → w ≠ "" → isImage w = true →
        getImageUrl pv isImage = some w) ∧
    (truthy (pv.image_details.map ImageDetails.link) = false →
      (truthy pv.post.url && isImage (pv.post.url.getD "")) = false →
      (truthy pv.post.thumbnail_url && isImage (pv.post.thumbnail_url.getD "")) = false →
      getImageUrl pv isImage = none) := by
  refine ⟨?_, ?_, ?_, ?_⟩
  · intro x hx hne
    unfold getImageUrl
    rw [hx]
    rw [if_pos (by simp [truthy, hne])]
  · intro hdet u hu hne hacc
    unfold getImageUrl
    rw [if_neg (by simp [hdet]), hu, if_pos (by simp [truthy, hne, hacc])]
  · intro hdet hurl w hw hne hacc
    unfold getImageUrl
    rw [if_neg (by simp [hdet]), if_neg (by simp [hurl]), hw,
      if_pos (by simp [truthy, hne, hacc])]
  · intro hdet hurl hthumb
    unfold getImageUrl
    rw [if_neg (by simp [hdet]), if_neg (by simp [hurl]), if_neg (by simp [hthumb])]

/-- Claim C5 (witness): applying the priority theorem to `pvDet`, whose
non-empty `image_details.link` is `"x.png"`, resolves `"x.png"` even
though the url `"other.jpg"` is also an accepted image. -/
theorem getImageUrl_priority_witness :
    getImageUrl pvDet (fun _ => true) = some "x.png" :=
  (getImageUrl_priority pvDet (fun _ => true)).1 "x.png" (by decide) (by decide)

/-! ### Claim C6: condensed rendering -/

/-- Claim C6 (confirmed): a post carrying a mini-marker tag (the
source's `hasMiniTag` test) renders no image and no body markdown,
whatever its `url`, `thumbnail_url`, `image_details` and `body`. -/
theorem renderNewsPost_condensed (pv : PostView) (isImage : String → Bool)
    (h : hasMiniTag pv.tags = true) :
    (renderNewsPost pv isImage).image = none ∧
    (renderNewsPost pv isImage).bodyRendered = none := by
  constructor <;> simp [renderNewsPost, h, truthy]

/-- Claim C6 (witness): `pvMini` has a `"Mini"` tag plus a url, a body,
a thumbnail and an `image_details.link`, and still renders neither
image nor body. -/
theorem renderNewsPost_condensed_witness :
    (renderNewsPost pvMini (fun _ => true)).image = none ∧
    (renderNewsPost pvMini (fun _ => true)).bodyRendered = none :=
  renderNewsPost_condensed pvMini (fun _ => true) (by decide)

/-! ### Claim C9: top posts are sliced to ten -/

/-- Claim C9 (confirmed): on a successful top-posts response with `n`
posts, the Top Local Posts section renders exactly the first
`min(n, 10)` posts of the response, in order. -/
theorem renderLocalTop_first_ten (resp : GetPostsResponse) :
    renderedTopItems (renderLocalTopContent (RequestState.success resp)) =
      resp.posts.take 10 ∧
    (renderedTopItems (renderLocalTopContent (RequestState.success resp))).length =
      min resp.posts.length 10 := by
  have h1 : renderedTopItems (renderLocalTopContent (RequestState.success resp)) =
      resp.posts.take 10 := by
    show renderedTopItems
      (if (resp.posts.take 10).isEmpty then SectionRender.noPosts
        else SectionRender.items (resp.posts.take 10)) = resp.posts.take 10
    split_ifs with h
    · have h2 : resp.posts.take 10 = [] := by simpa using h
      rw [h2]
      rfl
    · rfl
  refine ⟨h1, ?_⟩
  rw [h1, List.length_take, Nat.min_comm]

/-! ### Claim C10: gallery thumbnail fallback -/

/-- Claim C10 (confirmed): the gallery item shows the resolver's image
when one exists, and otherwise falls back to the raw `thumbnail_url`
with no image predicate applied (the fallback's value does not mention
the predicate), so a predicate-rejected thumbnail can still show. -/
theorem galleryItem_image_fallback (pv : PostView) (isImage : String → Bool) :
    (∀ u, getImageUrl pv isImage = some u → galleryItemImage pv isImage = some u) ∧
    (getImageUrl pv isImage = none →
      galleryItemImage pv isImage =
        if truthy pv.post.thumbnail_url then pv.post.thumbnail_url else none) := by
  constructor
  · intro u hu
    have hne : u ≠ "" := getImageUrl_some_ne_empty hu
    unfold galleryItemImage
    rw [hu]
    simp [truthy, hne]
  · intro hn
    unfold galleryItemImage
    rw [hn]

/-- Claim C10 (witness): `pvThumbOnly` resolves no image under the
all-rejecting predicate, yet its raw thumbnail `"t.bmp"` is shown. -/
theorem galleryItem_image_fallback_witness :
    galleryItemImage pvThumbOnly (fun _ => false) = some "t.bmp" :=
  ((galleryItem_image_fallback pvThumbOnly (fun _ => false)).2 (by decide)).trans
    (by decide)

/-! ### Claim C1: slots do not resolve independently -/

/-- Claim C1 (counterexample): with resolution times 1, 2, 3 the news
fetch resolves first, at time 1, but the news slot is first observably
resolved only at time 3, when all three fetches have settled — the
claim's "as soon as its own fetch resolves, without waiting" fails. -/
theorem fetchAll_independent_cex :
    firstResolvedTime SlotName.news
        (fetchAllUpdates 1 2 3 (FetchOutcome.success 0) (FetchOutcome.success 0)
          (FetchOutcome.success 0)) = some 3 ∧
    firstResolvedTime SlotName.news
        (fetchAllUpdates 1 2 3 (FetchOutcome.success 0) (FetchOutcome.success 0)
          (FetchOutcome.success 0)) ≠ some 1 := by
  constructor <;> decide

/-- Claim C1 (amended): after `fetchAll()`, every slot first becomes
resolved at the same instant — the maximum of the three resolution
times, when the single batched update after `await Promise.all` runs —
so a slot whose own fetch settles earlier does wait for the other two. -/
theorem fetchAll_batched_resolution {T : Type} (tN tG tL : Nat)
    (oN oG oL : FetchOutcome T) (s : SlotName) :
    firstResolvedTime s (fetchAllUpdates tN tG tL oN oG oL) =
      some (max tN (max tG tL)) := by
  cases s <;>
    simp [firstResolvedTime, fetchAllUpdates, allLoading, FeedSlots.slot,
      isResolved_loading, outcomeState_isResolved, List.filter]

/-! ### Claim C3: the atomic all-Loading transition -/

/-- Claim C3 (confirmed): the first observable update of `fetchAll()` is
the single batched state with all three slots Loading, at time 0; every
observable update is either that all-loading state or the all-results
state (a reader never sees a mixed state); and any update in which some
slot is resolved comes strictly after the first. -/
theorem fetchAll_loading_before_results {T : Type} (tN tG tL : Nat)
    (oN oG oL : FetchOutcome T) :
    (fetchAllUpdates tN tG tL oN oG oL).head? = some (0, allLoading T) ∧
    (∀ p ∈ fetchAllUpdates tN tG tL oN oG oL,
      p.2 = allLoading T ∨ ∀ s : SlotName, (p.2.slot s).isResolved = true) ∧
    (∀ i, ∀ hi : i < (fetchAllUpdates tN tG tL oN oG oL).length,
      (∃ s : SlotName,
        (((fetchAllUpdates tN tG tL oN oG oL).get ⟨i, hi⟩).2.slot s).isResolved = true) →
      1 ≤ i) := by
  refine ⟨rfl, ?_, ?_⟩
  · intro p hp
    rcases List.mem_cons.mp hp with h | h
    · left
      rw [h]
    · right
      have h2 := List.mem_singleton.mp h
      intro s
      rw [h2]
      cases s <;> simp [FeedSlots.slot, outcomeState_isResolved]
  · intro i hi hex
    rcases Nat.eq_zero_or_pos i with h0 | h0
    · subst h0
      exfalso
      obtain ⟨s, hs⟩ := hex
      have hg : (fetchAllUpdates tN tG tL oN oG oL).get ⟨0, hi⟩ = (0, allLoading T) := rfl
      rw [hg] at hs
      cases s <;> simp [allLoading, FeedSlots.slot, RequestState.isResolved] at hs
    · exact h0

/-- Claim C3 (witness): on the concrete timeline with times 1, 2, 3 and
three successes, the head is the all-loading state at time 0 and the
resolved update sits at index 1 (after the loading one). -/
theorem fetchAll_loading_before_results_witness :
    1 ≤ 1 ∧
    (fetchAllUpdates 1 2 3 (FetchOutcome.success 0) (FetchOutcome.success 0)
      (FetchOutcome.success 0)).head? = some (0, allLoading Nat) := by
  constructor
  · exact (fetchAll_loading_before_results 1 2 3 (FetchOutcome.success 0)
      (FetchOutcome.success 0) (FetchOutcome.success 0)).2.2 1 (by decide)
      ⟨SlotName.news, by decide⟩
  · exact (fetchAll_loading_before_results 1 2 3 (FetchOutcome.success (0 : Nat))
      (FetchOutcome.success 0) (FetchOutcome.success 0)).1

/-! ### Claim C4: hydration skips the client fetch -/

/-- Claim C4 (confirmed): with a hydration snapshot (first load) the
constructor puts all three slots directly in `Success` with the
snapshot's data and `componentWillMount` never invokes `fetchAll`,
browser or not; in general the mount-time fetch happens iff no snapshot
was used and the code runs in a browser — never during server-side
rendering. -/
theorem newsLanding_hydration {T : Type} (d : NewsLandingData T) (b fl : Bool) :
    (constructNewsLanding true d).newsPosts = RequestState.success d.newsPosts ∧
    (constructNewsLanding true d).galleryPosts = RequestState.success d.galleryPosts ∧
    (constructNewsLanding true d).localTopPosts = RequestState.success d.localTopPosts ∧
    componentWillMountFetches (constructNewsLanding true d) b = false ∧
    componentWillMountFetches (constructNewsLanding fl d) b = (!fl && b) := by
  refine ⟨rfl, rfl, rfl, rfl, ?_⟩
  cases fl <;> cases b <;> rfl

/-! ### Claim C7: tag-cloud sizes -/

/-- Claim C7 (counterexample): one post with the single qualifying tag
`"funny"`: all counts are equal (and `"funny"` holds the unique maximum
count), yet its size is `1.23` — the 2-decimal rounding of
`0.85 + 0.75 * 0.5 = 1.225` — not `1.225`, and not `1.60` either. -/
theorem buildTagCloud_equal_counts_cex :
    buildTagCloud [pvFunny] = [{ name := "funny", size := 123 / 100 }] ∧
    (123 / 100 : ℚ) ≠ 1225 / 1000 ∧ (123 / 100 : ℚ) ≠ 160 / 100 := by
  refine ⟨?_, by norm_num, by norm_num⟩
  have h1 : buildTagCloud [pvFunny] = [{ name := "funny", size := cloudSize 1 1 1 }] := rfl
  rw [h1, cloudSize_equal 1 rfl]

/-- Claim C7 (amended): for every post list with at least one qualifying
tag, all tag-cloud sizes lie in `[0.85, 1.60]`; an entry whose count is
maximal gets size exactly `1.60` provided some other count is strictly
smaller; and when all counts are equal, every entry has size exactly
`1.23` (the 2-decimal rounding of the midpoint value `1.225`). -/
theorem buildTagCloud_sizes (posts : List PostView)
    (hq : ∃ pv ∈ posts, ∃ t ∈ pv.tags, t.deleted = false ∧ jsTrim (tagLabelRaw t) ≠ "") :
    (∀ e ∈ buildTagCloud posts, minSize ≤ e.size ∧ e.size ≤ maxSize) ∧
    (∀ l c, (l, c) ∈ tagCounts posts →
      (∀ p ∈ tagCounts posts, p.2 ≤ c) →
      (∃ p ∈ tagCounts posts, p.2 < c) →
      ({ name := l, size := maxSize } : TagCloudEntry) ∈ buildTagCloud posts) ∧
    ((∀ p ∈ tagCounts posts, ∀ q ∈ tagCounts posts, p.2 = q.2) →
      ∀ e ∈ buildTagCloud posts, e.size = 123 / 100) := by
  have hne : tagCounts posts ≠ [] := tagCounts_ne_nil hq
  have hnemap : (tagCounts posts).map Prod.snd ≠ [] := by
    intro h
    cases hcp : tagCounts posts with
    | nil => exact hne hcp
    | cons a as => rw [hcp] at h; simp at h
  have hie : (tagCounts posts).isEmpty = false := by
    cases hcp : tagCounts posts with
    | nil => exact absurd hcp hne
    | cons a as => rfl
  have hB : buildTagCloud posts =
      (sortByCountDesc (tagCounts posts)).map fun e =>
        { name := e.1
          size := cloudSize (maxOf ((tagCounts posts).map Prod.snd))
                            (minOf ((tagCounts posts).map Prod.snd)) e.2 } := by
    unfold buildTagCloud
    rw [if_neg (by rw [hie]; exact Bool.false_ne_true)]
  refine ⟨?_, ?_, ?_⟩
  · intro e he
    rw [hB] at he
    obtain ⟨⟨l, c⟩, hmem, rfl⟩ := List.mem_map.mp he
    have hment : (l, c) ∈ tagCounts posts := mem_sortByCountDesc.mp hmem
    have hcmem : c ∈ (tagCounts posts).map Prod.snd :=
      List.mem_map_of_mem Prod.snd hment
    exact cloudSize_bounds (minOf_le _ c hcmem) (le_maxOf _ c hcmem)
  · intro l c hmem hmax hlt
    have hcmem : c ∈ (tagCounts posts).map Prod.snd :=
      List.mem_map_of_mem Prod.snd hmem
    have hcmax : maxOf ((tagCounts posts).map Prod.snd) = c := by
      apply le_antisymm
      · obtain ⟨p, hp, hpe⟩ := List.mem_map.mp (maxOf_mem _ hnemap)
        rw [← hpe]
        exact hmax p hp
      · exact le_maxOf _ c hcmem
    have hmn_lt : minOf ((tagCounts posts).map Prod.snd) < c := by
      obtain ⟨p, hp, hplt⟩ := hlt
      exact lt_of_le_of_lt (minOf_le _ p.2 (List.mem_map_of_mem Prod.snd hp)) hplt
    rw [hB]
    refine List.mem_map.mpr ⟨(l, c), mem_sortByCountDesc.mpr hmem, ?_⟩
    have hs : cloudSize (maxOf ((tagCounts posts).map Prod.snd))
        (minOf ((tagCounts posts).map Prod.snd)) c = maxSize :=
      cloudSize_top c hcmax.symm (by rw [hcmax]; exact hmn_lt)
    rw [hs]
  · intro hall e he
    rw [hB] at he
    obtain ⟨⟨l, c⟩, hmem, rfl⟩ := List.mem_map.mp he
    obtain ⟨p, hp, hpe⟩ := List.mem_map.mp (maxOf_mem _ hnemap)
    obtain ⟨q, hq2, hqe⟩ := List.mem_map.mp (minOf_mem _ hnemap)
    have heq : maxOf ((tagCounts posts).map Prod.snd) =
        minOf ((tagCounts posts).map Prod.snd) := by
      rw [← hpe, ← hqe]
      exact hall p hp q hq2
    exact cloudSize_equal c heq

/-- Claim C7 (witness): the size `1.23` produced for `pvFunny`'s single
tag lies within the claimed bounds `[0.85, 1.60]`. -/
theorem buildTagCloud_sizes_witness :
    minSize ≤ (123 / 100 : ℚ) ∧ (123 / 100 : ℚ) ≤ maxSize := by
  have hmem : ({ name := "funny", size := 123 / 100 } : TagCloudEntry) ∈
      buildTagCloud [pvFunny] := by
    have h1 : buildTagCloud [pvFunny] =
        [{ name := "funny", size := cloudSize 1 1 1 }] := rfl
    rw [h1, cloudSize_equal 1 rfl]
    exact List.mem_singleton.mpr rfl
  exact (buildTagCloud_sizes [pvFunny] (by decide)).1
    { name := "funny", size := 123 / 100 } hmem

/-! ### Claim C8: exclusion of deleted and empty-labelled tags -/

/-- Claim C8 (confirmed): every tag-cloud entry originates from some
non-deleted tag whose trimmed label is that entry's non-empty name (so
deleted tags and tags trimming to the empty label contribute nothing);
the cloud of the empty list is empty; and the cloud of any list whose
tags are all deleted or all trim to empty is empty. -/
theorem buildTagCloud_excludes (posts : List PostView) :
    (∀ e ∈ buildTagCloud posts, ∃ pv ∈ posts, ∃ t ∈ pv.tags,
      t.deleted = false ∧ jsTrim (tagLabelRaw t) = e.name ∧ e.name ≠ "") ∧
    buildTagCloud [] = [] ∧
    ((∀ pv ∈ posts, ∀ t ∈ pv.tags, t.deleted = true ∨ jsTrim (tagLabelRaw t) = "") →
      buildTagCloud posts = []) := by
  refine ⟨?_, rfl, ?_⟩
  · intro e he
    unfold buildTagCloud at he
    split_ifs at he with hie
    · cases he
    · obtain ⟨⟨l, c⟩, hmem, rfl⟩ := List.mem_map.mp he
      exact mem_tagCounts (mem_sortByCountDesc.mp hmem)
  · intro h
    unfold buildTagCloud
    rw [tagCounts_nonqual posts h]
    rfl

/-- Claim C8 (witness): a post whose only tags are a deleted `"funny"`
and a whitespace-only label yields the empty cloud. -/
theorem buildTagCloud_excludes_witness : buildTagCloud [pvExcluded] = [] :=
  (buildTagCloud_excludes [pvExcluded]).2.2 (by decide)

end NewsLanding
